import Mathlib

/-!
Shallow embedding of `yaqd_andor/_andor_neo.py` (class `AndorNeo`): the AOI
configurator `_set_aoi`, the temperature convergence loop
`_check_temp_stabilized`, and the feature-introspection facade
`get_feature_options`.  Python integers are modelled as `Int` (Python `//` is
`Int.fdiv`), temperatures as `ℚ`, and the Feature Registry as an explicit
record plus a trace of write events.
-/

/-- A value written to the Feature Registry (string or integer feature). -/
inductive FeatValue where
  | str (s : String)
  | int (n : Int)
  deriving DecidableEq, Repr

/-- The AOI-related configuration options consumed by `_set_aoi`:
`aoi_binning` is a compound specifier string; the four geometry options are
optional (Python `None` maps to `Option.none`). -/
structure AoiConfig where
  aoi_binning : String
  aoi_width : Option Int
  aoi_left : Option Int
  aoi_height : Option Int
  aoi_top : Option Int
  deriving DecidableEq, Repr

/-- The Feature Registry state touched by `_set_aoi`: the read-only sensor
limits and the five AOI features.  `set` followed by `get` on the same
feature returns the written value. -/
structure Registry where
  sensor_width : Int
  sensor_height : Int
  aoi_binning : String
  aoi_width : Int
  aoi_left : Int
  aoi_height : Int
  aoi_top : Int
  deriving DecidableEq, Repr

/-- Errors `_set_aoi` can raise: `indexError` for `binning[0]` on an empty
string, `valueError` for `int()` parse failures and for the two bound checks
(carrying the formatted message), `zeroDivisionError` for `width //= binning`
with `binning = 0`. -/
inductive AoiError where
  | indexError
  | valueError (msg : String)
  | zeroDivisionError
  deriving DecidableEq, Repr

/-- Python `int(c)` on a single character: the digit value, or a
`ValueError` (modelled as `none`) when `c` is not a digit (code point
outside 48-57). -/
def intOfChar (c : Char) : Option Int :=
  if 48 ≤ c.toNat ∧ c.toNat ≤ 57 then some ((c.toNat : Int) - 48) else none

/-- Embeds `int(binning[0])` from `_set_aoi` line 38: take the first
character of the compound binning specifier and convert it with `int`. -/
def parseBinning (s : String) : Except AoiError Int :=
  match s.data with
  | [] => .error .indexError
  | c :: _ =>
    match intOfChar c with
    | some n => .ok n
    | none => .error (.valueError ("invalid literal for int() with base 10: " ++ String.singleton c))

/-- `numpy.arange start stop step` for a positive integer `step`: the list
`[start, start + step, ...)` of all values below `stop`, of length
`⌈(stop − start) / step⌉`. -/
def arange (start stop step : Int) : List Int :=
  (List.range ((stop - start + step - 1).fdiv step).toNat).map
    (fun (i : Nat) => start + (i : Int) * step)

/-- The observable outcome of a successful `_set_aoi` run: the final registry,
the `"image"` channel shape `(height, width)` re-read from the registry, and
the two axis index mappings. -/
structure AoiResult where
  registry : Registry
  shape : Int × Int
  x_index : List Int
  y_index : List Int
  deriving DecidableEq, Repr

/-- Line 45-46 of `_set_aoi`: `left` with its default of 1. -/
def aoiLeft (cfg : AoiConfig) : Int := cfg.aoi_left.getD 1

/-- Line 47-48 of `_set_aoi`: `top` with its default of 1. -/
def aoiTop (cfg : AoiConfig) : Int := cfg.aoi_top.getD 1

/-- Line 49-50 of `_set_aoi`: the requested pixel width, defaulting to
`max_width - left + 1`. -/
def aoiWidth0 (cfg : AoiConfig) (reg : Registry) : Int :=
  cfg.aoi_width.getD (reg.sensor_width - aoiLeft cfg + 1)

/-- Line 51-52 of `_set_aoi`: the requested pixel height, defaulting to
`max_height - top + 1`. -/
def aoiHeight0 (cfg : AoiConfig) (reg : Registry) : Int :=
  cfg.aoi_height.getD (reg.sensor_height - aoiTop cfg + 1)

/-- Line 53 of `_set_aoi`: `width //= binning` (Python floor division). -/
def aoiWidthB (cfg : AoiConfig) (reg : Registry) (b : Int) : Int :=
  (aoiWidth0 cfg reg).fdiv b

/-- Line 54 of `_set_aoi`: `height //= binning` (Python floor division). -/
def aoiHeightB (cfg : AoiConfig) (reg : Registry) (b : Int) : Int :=
  (aoiHeight0 cfg reg).fdiv b

/-- Line 57 of `_set_aoi`: `w_extent = width * binning + (left-1)`. -/
def wExtent (cfg : AoiConfig) (reg : Registry) (b : Int) : Int :=
  aoiWidthB cfg reg b * b + (aoiLeft cfg - 1)

/-- Line 58 of `_set_aoi`: `h_extent = height * binning + (top-1)`. -/
def hExtent (cfg : AoiConfig) (reg : Registry) (b : Int) : Int :=
  aoiHeightB cfg reg b * b + (aoiTop cfg - 1)

/-- Line 64 of `_set_aoi`: the f-string `"<n>x<n>"` written to `aoi_binning`. -/
def binStr (b : Int) : String := toString b ++ "x" ++ toString b

/-- Line 60 of `_set_aoi`: the message of the `ValueError` raised when the
width extent exceeds the sensor width (the source says "height" here). -/
def wErrMsg (cfg : AoiConfig) (reg : Registry) (b : Int) : String :=
  "height extends over " ++ toString (wExtent cfg reg b) ++ " pixels, max is " ++
    toString reg.sensor_width

/-- Line 62 of `_set_aoi`: the message of the `ValueError` raised when the
height extent exceeds the sensor height. -/
def hErrMsg (cfg : AoiConfig) (reg : Registry) (b : Int) : String :=
  "height extends over " ++ toString (hExtent cfg reg b) ++ " pixels, max is " ++
    toString reg.sensor_height

/-- Lines 64-68 of `_set_aoi`: the registry after the five feature writes. -/
def aoiRegistry (cfg : AoiConfig) (reg : Registry) (b : Int) : Registry :=
  { reg with
    aoi_binning := binStr b
    aoi_width := aoiWidthB cfg reg b
    aoi_left := aoiLeft cfg
    aoi_height := aoiHeightB cfg reg b
    aoi_top := aoiTop cfg }

/-- Lines 64-68 of `_set_aoi`: the ordered trace of feature writes. -/
def aoiWrites (cfg : AoiConfig) (reg : Registry) (b : Int) : List (String × FeatValue) :=
  [("aoi_binning", .str (binStr b)), ("aoi_width", .int (aoiWidthB cfg reg b)),
   ("aoi_left", .int (aoiLeft cfg)), ("aoi_height", .int (aoiHeightB cfg reg b)),
   ("aoi_top", .int (aoiTop cfg))]

/-- Lines 71-85 of `_set_aoi`: the observable success state — the channel
shape re-read from the registry and the `numpy.arange` axis mappings. -/
def aoiResult (cfg : AoiConfig) (reg : Registry) (b : Int) : AoiResult :=
  { registry := aoiRegistry cfg reg b
    shape := ((aoiRegistry cfg reg b).aoi_height, (aoiRegistry cfg reg b).aoi_width)
    x_index := arange (aoiLeft cfg) (aoiLeft cfg + aoiWidthB cfg reg b * b) b
    y_index := arange (aoiTop cfg) (aoiTop cfg + aoiHeightB cfg reg b * b) b }

/-- Embeds `AndorNeo._set_aoi` (lines 33-88).  Returns the ordered trace of
Feature Registry writes performed, paired with either the error raised or the
resulting observable state.  Mirrors the source exactly: parse the binning
from the first character, read sensor limits, fill geometry defaults, floor
divide the extents by the binning, check the two bounds (raising before any
write), then write binning, width, left, height, top in that order and derive
shape and axis mappings from re-read values. -/
def set_aoi (cfg : AoiConfig) (reg : Registry) :
    List (String × FeatValue) × Except AoiError AoiResult :=
  match parseBinning cfg.aoi_binning with
  | .error e => ([], .error e)
  | .ok binning =>
    if binning = 0 then ([], .error .zeroDivisionError)
    else if reg.sensor_width < wExtent cfg reg binning then
      ([], .error (.valueError (wErrMsg cfg reg binning)))
    else if reg.sensor_height < hExtent cfg reg binning then
      ([], .error (.valueError (hErrMsg cfg reg binning)))
    else
      (aoiWrites cfg reg binning, .ok (aoiResult cfg reg binning))

/-- Python `abs` on a rational. -/
def pyAbs (q : ℚ) : ℚ := if q < 0 then -q else q

/-- The `while abs(diff) > 1.` loop of `_check_temp_stabilized` (lines
108-115), run against a finite list of pending sensor-temperature readings
with a constant target.  `diff` is the difference computed from the reading
already consumed.  Returns `none` when the reading list is exhausted while
still unconverged, otherwise `some (n, ds)`: the number of further readings
consumed and the diffs observed from this check on (the terminal in-tolerance
diff included). -/
def tempLoop (target : ℚ) : List ℚ → ℚ → Option (Nat × List ℚ)
  | [], diff => if 1 < pyAbs diff then none else some (0, [diff])
  | t :: rest, diff =>
    if 1 < pyAbs diff then (tempLoop target rest (target - t)).map (fun p => (p.1 + 1, diff :: p.2))
    else some (0, [diff])

/-- Embeds `AndorNeo._check_temp_stabilized` (lines 104-116) against a finite
list of sensor-temperature readings and a constant target: one reading is
consumed before the loop, then the loop re-reads while the magnitude of the
diff exceeds 1.  Returns `some (reads, diffs)`: the total number of readings
consumed and every diff computed. -/
def check_temp_stabilized (target : ℚ) : List ℚ → Option (Nat × List ℚ)
  | [] => none
  | t :: rest => (tempLoop target rest (target - t)).map (fun p => (p.1 + 1, p.2))

/-- Line 107 (and 115) of `_check_temp_stabilized`:
`diff = float(set_temp) - sensor_temp` for the k-th (target, sensor) read
pair. -/
def tempDiff (reads : Nat → ℚ × ℚ) (k : Nat) : ℚ := (reads k).1 - (reads k).2

/-- Embeds `AndorNeo._check_temp_stabilized` against an infinite stream of
(target, sensor) reading pairs, with explicit fuel: iteration `k` reads
`reads k`, computes `diff = target − current`, stops when `|diff| ≤ 1`, and
otherwise sleeps 5 time units and repeats.  Returns `some (k, elapsed)`:
the index of the stabilizing read pair and the total time slept. -/
def tempPoll (reads : Nat → ℚ × ℚ) : Nat → Nat → Nat → Option (Nat × Nat)
  | 0, _, _ => none
  | fuel + 1, k, elapsed =>
    if 1 < pyAbs (tempDiff reads k) then tempPoll reads fuel (k + 1) (elapsed + 5)
    else some (k, elapsed)

/-- Modelled from the spec: the `features` module (Feature classes) is not in
the source tree.  Per §3 and §6 a feature carries one of four value kinds,
and only enumerated features carry an ordered list of allowed options. -/
inductive Feature where
  | enum (options : List String) (value : String)
  | intF (value : Int)
  | floatF (value : ℚ)
  | boolF (value : Bool)
  deriving DecidableEq, Repr

/-- Whether a feature is of enumerated kind. -/
def Feature.isEnum : Feature → Bool
  | .enum _ _ => true
  | _ => false

/-- Modelled from the spec: `Feature.options` — §6 gives
`options(name) -> ordered sequence of value` for enumerated features only,
and §4.3 makes option listing on a non-enumerated feature an
UnsupportedOperationError. -/
def Feature.options : Feature → Except Unit (List String)
  | .enum opts _ => .ok opts
  | _ => .error ()

/-- Errors of the introspection facade: `unknownFeature` models the Python
`KeyError` from `self.features[k]` (the spec calls it UnknownFeatureError);
`unsupportedOperation` models the spec's UnsupportedOperationError from
`options()` on a non-enumerated feature. -/
inductive FacadeError where
  | unknownFeature
  | unsupportedOperation
  deriving DecidableEq, Repr

/-- Embeds `AndorNeo.get_feature_options` (lines 128-135): look the name up
in the feature dictionary (`KeyError` when absent), then return
`feature.options()`. -/
def get_feature_options (features : List (String × Feature)) (k : String) :
    Except FacadeError (List String) :=
  match features.lookup k with
  | none => .error .unknownFeature
  | some f =>
    match f.options with
    | .ok opts => .ok opts
    | .error _ => .error .unsupportedOperation

/-- A character accepted by `intOfChar` yields a single decimal digit. -/
lemma intOfChar_bounds {c : Char} {n : Int} (h : intOfChar c = some n) :
    0 ≤ n ∧ n ≤ 9 := by
  unfold intOfChar at h
  split at h
  · next hc =>
    simp only [Option.some.injEq] at h
    omega
  · simp at h

/-- A successfully parsed binning value is a single decimal digit. -/
lemma parseBinning_ok_bounds {s : String} {b : Int} (h : parseBinning s = .ok b) :
    0 ≤ b ∧ b ≤ 9 := by
  unfold parseBinning at h
  cases hd : s.data with
  | nil =>
    rw [hd] at h
    simp at h
  | cons c rest =>
    rw [hd] at h
    have h2 : (match intOfChar c with
        | some n => Except.ok n
        | none => Except.error (AoiError.valueError
            ("invalid literal for int() with base 10: " ++ String.singleton c))) =
        Except.ok (ε := AoiError) b := h
    cases hic : intOfChar c with
    | some n =>
      rw [hic] at h2
      simp only [Except.ok.injEq] at h2
      have hb := intOfChar_bounds hic
      omega
    | none =>
      rw [hic] at h2
      simp at h2

/-- Floor division times the divisor is at most the dividend (positive divisor). -/
lemma fdiv_mul_le_self (a : Int) {b : Int} (hb : 0 < b) : a.fdiv b * b ≤ a := by
  rw [Int.fdiv_eq_ediv a hb.le]
  exact Int.ediv_mul_le a hb.ne.symm

lemma set_aoi_parse_error {cfg : AoiConfig} {reg : Registry} {e : AoiError}
    (h : parseBinning cfg.aoi_binning = .error e) : set_aoi cfg reg = ([], .error e) := by
  unfold set_aoi
  rw [h]

lemma set_aoi_ok_eval {cfg : AoiConfig} {reg : Registry} {b : Int}
    (hb : parseBinning cfg.aoi_binning = .ok b) (hb0 : b ≠ 0)
    (hw : wExtent cfg reg b ≤ reg.sensor_width)
    (hh : hExtent cfg reg b ≤ reg.sensor_height) :
    set_aoi cfg reg = (aoiWrites cfg reg b, .ok (aoiResult cfg reg b)) := by
  unfold set_aoi
  rw [hb]
  simp [hb0, not_lt.mpr hw, not_lt.mpr hh]

lemma set_aoi_w_violation {cfg : AoiConfig} {reg : Registry} {b : Int}
    (hb : parseBinning cfg.aoi_binning = .ok b) (hb0 : b ≠ 0)
    (hw : reg.sensor_width < wExtent cfg reg b) :
    set_aoi cfg reg = ([], .error (.valueError (wErrMsg cfg reg b))) := by
  unfold set_aoi
  rw [hb]
  simp [hb0, hw]

lemma set_aoi_h_violation {cfg : AoiConfig} {reg : Registry} {b : Int}
    (hb : parseBinning cfg.aoi_binning = .ok b) (hb0 : b ≠ 0)
    (hw : wExtent cfg reg b ≤ reg.sensor_width)
    (hh : reg.sensor_height < hExtent cfg reg b) :
    set_aoi cfg reg = ([], .error (.valueError (hErrMsg cfg reg b))) := by
  unfold set_aoi
  rw [hb]
  simp [hb0, not_lt.mpr hw, hh]

/-- Inversion: a successful `set_aoi` run determines the parsed binning, the
satisfied bound checks, the write trace, and the result. -/
lemma set_aoi_ok_inv {cfg : AoiConfig} {reg : Registry}
    {writes : List (String × FeatValue)} {res : AoiResult}
    (h : set_aoi cfg reg = (writes, .ok res)) :
    ∃ b, parseBinning cfg.aoi_binning = .ok b ∧ b ≠ 0 ∧
      wExtent cfg reg b ≤ reg.sensor_width ∧ hExtent cfg reg b ≤ reg.sensor_height ∧
      writes = aoiWrites cfg reg b ∧ res = aoiResult cfg reg b := by
  unfold set_aoi at h
  split at h
  · simp at h
  · next b hp =>
    split_ifs at h with h0 h1 h2
    · simp at h
    · simp at h
    · simp at h
    · simp only [Prod.mk.injEq, Except.ok.injEq] at h
      exact ⟨b, hp, h0, not_lt.mp h1, not_lt.mp h2, h.1.symm, h.2.symm⟩

/-- The embedded Python `abs` agrees with the mathematical absolute value. -/
lemma pyAbs_eq_abs (q : ℚ) : pyAbs q = |q| := by
  unfold pyAbs
  split
  · next hq => exact (abs_of_neg hq).symm
  · next hq => exact (abs_of_nonneg (not_lt.mp hq)).symm

lemma arange_length (s e st : Int) :
    (arange s e st).length = ((e - s + st - 1).fdiv st).toNat := by
  rw [arange, List.length_map, List.length_range]

/-- For a positive divisor, `⌈w·b / b⌉ = w` (the `arange` length collapses). -/
lemma ceil_mul_div {b : Int} (w : Int) (hb : 1 ≤ b) : (w * b + b - 1).fdiv b = w := by
  rw [Int.fdiv_eq_ediv _ (by omega : (0:Int) ≤ b)]
  have hbne : b ≠ 0 := by omega
  have hsplit : w * b + b - 1 = (b - 1) + w * b := by ring
  rw [hsplit, Int.add_mul_ediv_right _ _ hbne,
    Int.ediv_eq_zero_of_lt (by omega) (by omega), zero_add]

lemma arange_block_length (s w b : Int) (hb : 1 ≤ b) :
    (arange s (s + w * b) b).length = w.toNat := by
  rw [arange_length]
  have hstop : s + w * b - s + b - 1 = w * b + b - 1 := by ring
  rw [hstop, ceil_mul_div w hb]

lemma arange_getElem (s e st : Int) (i : Nat) (hi : i < (arange s e st).length) :
    (arange s e st)[i]? = some (s + i * st) := by
  rw [arange] at hi ⊢
  rw [List.length_map, List.length_range] at hi
  rw [List.getElem?_map, List.getElem?_range hi]
  rfl

lemma tempPoll_some_inv {reads : Nat → ℚ × ℚ} :
    ∀ (fuel k0 e0 k e : Nat), tempPoll reads fuel k0 e0 = some (k, e) →
      k0 ≤ k ∧ k < k0 + fuel ∧ pyAbs (tempDiff reads k) ≤ 1 ∧
      (∀ j, k0 ≤ j → j < k → 1 < pyAbs (tempDiff reads j)) ∧ e = e0 + 5 * (k - k0) := by
  intro fuel
  induction fuel with
  | zero => intro k0 e0 k e h; simp [tempPoll] at h
  | succ fuel ih =>
    intro k0 e0 k e h
    rw [tempPoll] at h
    split_ifs at h with hd
    · obtain ⟨h1, h2, h3, h4, h5⟩ := ih (k0 + 1) (e0 + 5) k e h
      refine ⟨by omega, by omega, h3, ?_, by omega⟩
      intro j hj1 hj2
      rcases Nat.eq_or_lt_of_le hj1 with rfl | hlt
      · exact hd
      · exact h4 j hlt hj2
    · simp only [Option.some.injEq, Prod.mk.injEq] at h
      obtain ⟨rfl, rfl⟩ := h
      exact ⟨le_refl _, by omega, not_lt.mp hd, fun j hj1 hj2 => absurd (lt_of_le_of_lt hj1 hj2) (lt_irrefl _), by omega⟩

lemma tempPoll_none_of_unstable {reads : Nat → ℚ × ℚ} :
    ∀ (fuel k0 e0 : Nat), (∀ j, k0 ≤ j → j < k0 + fuel → 1 < pyAbs (tempDiff reads j)) →
      tempPoll reads fuel k0 e0 = none := by
  intro fuel
  induction fuel with
  | zero => intro k0 e0 _; rfl
  | succ fuel ih =>
    intro k0 e0 hall
    rw [tempPoll, if_pos (hall k0 (le_refl _) (by omega))]
    exact ih (k0 + 1) (e0 + 5) (fun j hj1 hj2 => hall j (by omega) (by omega))

lemma tempPoll_some_of_first_stable {reads : Nat → ℚ × ℚ} :
    ∀ (fuel k0 e0 k : Nat), k0 ≤ k → k < k0 + fuel → pyAbs (tempDiff reads k) ≤ 1 →
      (∀ j, k0 ≤ j → j < k → 1 < pyAbs (tempDiff reads j)) →
      tempPoll reads fuel k0 e0 = some (k, e0 + 5 * (k - k0)) := by
  intro fuel
  induction fuel with
  | zero =>
    intro k0 e0 k h1 h2 _ _
    omega
  | succ fuel ih =>
    intro k0 e0 k h1 h2 hstable hfirst
    rcases Nat.eq_or_lt_of_le h1 with rfl | hlt
    · rw [tempPoll, if_neg (not_lt.mpr hstable)]
      simp
    · rw [tempPoll, if_pos (hfirst k0 (le_refl _) hlt)]
      have := ih (k0 + 1) (e0 + 5) k (by omega) (by omega) hstable
        (fun j hj1 hj2 => hfirst j (by omega) hj2)
      rw [this]
      have harith : e0 + 5 + 5 * (k - (k0 + 1)) = e0 + 5 * (k - k0) := by omega
      rw [harith]

/-- C1: for every input tuple (binning, left, top, width, height, max_width,
max_height) with a positive single-digit binning, nonnegative width/height,
`width*binning + (left-1) ≤ max_width` and `height*binning + (top-1) ≤
max_height`, `_set_aoi` completes without raising, and the values re-read
from the Feature Registry for aoi_width, aoi_left, aoi_height, aoi_top,
aoi_binning equal the locally computed ones (`width // binning`, `left`,
`height // binning`, `top`, `"<n>x<n>"`). -/
theorem set_aoi_valid_roundtrip (reg : Registry) (s : String) (b w l t h : Int)
    (hb : parseBinning s = .ok b) (hb1 : 1 ≤ b) (hw0 : 0 ≤ w) (hh0 : 0 ≤ h)
    (hwb : w * b + (l - 1) ≤ reg.sensor_width)
    (hhb : h * b + (t - 1) ≤ reg.sensor_height) :
    (set_aoi ⟨s, some w, some l, some h, some t⟩ reg).2.map
      (fun r => (r.registry.aoi_width, r.registry.aoi_left, r.registry.aoi_height,
        r.registry.aoi_top, r.registry.aoi_binning)) =
      .ok (w.fdiv b, l, h.fdiv b, t, binStr b) := by
  have hb0 : b ≠ 0 := by omega
  have hwext : wExtent ⟨s, some w, some l, some h, some t⟩ reg b ≤ reg.sensor_width := by
    show w.fdiv b * b + (l - 1) ≤ reg.sensor_width
    have h1 : w.fdiv b * b ≤ w := fdiv_mul_le_self w (by omega)
    have h2 : w ≤ w * b := le_mul_of_one_le_right hw0 hb1
    linarith
  have hhext : hExtent ⟨s, some w, some l, some h, some t⟩ reg b ≤ reg.sensor_height := by
    show h.fdiv b * b + (t - 1) ≤ reg.sensor_height
    have h1 : h.fdiv b * b ≤ h := fdiv_mul_le_self h (by omega)
    have h2 : h ≤ h * b := le_mul_of_one_le_right hh0 hb1
    linarith
  rw [set_aoi_ok_eval hb hb0 hwext hhext]
  rfl

/-- C1 witness: a concrete valid tuple (binning 2, width 100, left 1,
height 50, top 1 on a 2560x2160 sensor) succeeds with the computed values
re-read back. -/
theorem set_aoi_valid_roundtrip_witness :
    (set_aoi ⟨"2x2", some 100, some 1, some 50, some 1⟩ ⟨2560, 2160, "", 0, 0, 0, 0⟩).2.map
      (fun r => (r.registry.aoi_width, r.registry.aoi_left, r.registry.aoi_height,
        r.registry.aoi_top, r.registry.aoi_binning)) =
      .ok (50, 1, 25, 1, "2x2") :=
  set_aoi_valid_roundtrip ⟨2560, 2160, "", 0, 0, 0, 0⟩ "2x2" 2 100 1 1 50
    (by rfl) (by omega) (by omega) (by omega) (by decide) (by decide)

/-- C2: at the spec's scenario max_width=2560, binning=1, left=2000,
width=1000 the code raises a ValueError whose message carries the computed
extent 2999 and the limit 2560, but names "height", not "width" — the
w_extent branch reuses the height wording (source line 60). -/
theorem set_aoi_width_violation_says_height :
    set_aoi ⟨"1x1", some 1000, some 2000, some 100, some 1⟩ ⟨2560, 2160, "", 0, 0, 0, 0⟩ =
      ([], .error (.valueError "height extends over 2999 pixels, max is 2560")) := by
  rfl

/-- C8: whenever the parsed binning is nonzero and either computed extent
exceeds its sensor limit, `_set_aoi` fails with the range ValueError and the
write trace is empty — in particular no partial writes of aoi_width,
aoi_left, aoi_height or aoi_top (nor even of aoi_binning) happen. -/
theorem set_aoi_violation_no_partial_writes (cfg : AoiConfig) (reg : Registry) (b : Int)
    (hb : parseBinning cfg.aoi_binning = .ok b) (hb0 : b ≠ 0)
    (hviol : reg.sensor_width < wExtent cfg reg b ∨ reg.sensor_height < hExtent cfg reg b) :
    (set_aoi cfg reg).1 = [] ∧
    ((set_aoi cfg reg).2 = .error (.valueError (wErrMsg cfg reg b)) ∨
     (set_aoi cfg reg).2 = .error (.valueError (hErrMsg cfg reg b))) := by
  by_cases hw : reg.sensor_width < wExtent cfg reg b
  · rw [set_aoi_w_violation hb hb0 hw]
    exact ⟨rfl, Or.inl rfl⟩
  · have hh : reg.sensor_height < hExtent cfg reg b := hviol.resolve_left hw
    rw [set_aoi_h_violation hb hb0 (not_lt.mp hw) hh]
    exact ⟨rfl, Or.inr rfl⟩

/-- C8 witness: a height-violating input (height 3000 on a 2160-pixel
sensor) fails with the range error and an empty write trace. -/
theorem set_aoi_violation_no_partial_writes_witness :
    (set_aoi ⟨"1x1", some 100, some 1, some 3000, some 1⟩ ⟨2560, 2160, "", 0, 0, 0, 0⟩).1 = [] ∧
    ((set_aoi ⟨"1x1", some 100, some 1, some 3000, some 1⟩ ⟨2560, 2160, "", 0, 0, 0, 0⟩).2 =
      .error (.valueError (wErrMsg ⟨"1x1", some 100, some 1, some 3000, some 1⟩
        ⟨2560, 2160, "", 0, 0, 0, 0⟩ 1)) ∨
     (set_aoi ⟨"1x1", some 100, some 1, some 3000, some 1⟩ ⟨2560, 2160, "", 0, 0, 0, 0⟩).2 =
      .error (.valueError (hErrMsg ⟨"1x1", some 100, some 1, some 3000, some 1⟩
        ⟨2560, 2160, "", 0, 0, 0, 0⟩ 1))) :=
  set_aoi_violation_no_partial_writes ⟨"1x1", some 100, some 1, some 3000, some 1⟩
    ⟨2560, 2160, "", 0, 0, 0, 0⟩ 1 (by rfl) (by omega) (Or.inr (by decide))

/-- C9: on every successful run, the features are written in exactly the
order binning (formatted "<n>x<n>"), width, left, height, top — binning
first. -/
theorem set_aoi_write_order (cfg : AoiConfig) (reg : Registry)
    (writes : List (String × FeatValue)) (res : AoiResult) (b : Int)
    (hrun : set_aoi cfg reg = (writes, .ok res))
    (hb : parseBinning cfg.aoi_binning = .ok b) :
    writes = [("aoi_binning", .str (toString b ++ "x" ++ toString b)),
      ("aoi_width", .int res.registry.aoi_width),
      ("aoi_left", .int res.registry.aoi_left),
      ("aoi_height", .int res.registry.aoi_height),
      ("aoi_top", .int res.registry.aoi_top)] := by
  obtain ⟨b', hb', hb0, hwx, hhx, hwr, hres⟩ := set_aoi_ok_inv hrun
  rw [hb] at hb'
  injection hb' with hbb
  subst hbb
  subst hres
  subst hwr
  rfl

/-- C9 witness: a concrete successful run writes binning "1x1" first, then
width 100, left 1, height 50, top 1. -/
theorem set_aoi_write_order_witness :
    aoiWrites ⟨"1x1", some 100, some 1, some 50, some 1⟩ ⟨2560, 2160, "", 0, 0, 0, 0⟩ 1 =
      [("aoi_binning", .str "1x1"), ("aoi_width", .int 100), ("aoi_left", .int 1),
       ("aoi_height", .int 50), ("aoi_top", .int 1)] :=
  set_aoi_write_order ⟨"1x1", some 100, some 1, some 50, some 1⟩ ⟨2560, 2160, "", 0, 0, 0, 0⟩
    (aoiWrites ⟨"1x1", some 100, some 1, some 50, some 1⟩ ⟨2560, 2160, "", 0, 0, 0, 0⟩ 1)
    (aoiResult ⟨"1x1", some 100, some 1, some 50, some 1⟩ ⟨2560, 2160, "", 0, 0, 0, 0⟩ 1)
    1 (by rfl) (by rfl)

/-- C5: on every successful run, whichever of the geometry options is
unspecified gets its default independently of the others: a missing left
(top) is applied as 1, a missing width is applied as
`(max_width - left + 1) // binning`, and a missing height as
`(max_height - top + 1) // binning`, with left/top the applied offsets and
max_width/max_height the sensor limits read from the registry. -/
theorem set_aoi_default_fill (cfg : AoiConfig) (reg : Registry)
    (writes : List (String × FeatValue)) (res : AoiResult) (b : Int)
    (hrun : set_aoi cfg reg = (writes, .ok res))
    (hb : parseBinning cfg.aoi_binning = .ok b) :
    (cfg.aoi_left = none → res.registry.aoi_left = 1) ∧
    (cfg.aoi_top = none → res.registry.aoi_top = 1) ∧
    (cfg.aoi_width = none →
      res.registry.aoi_width = (reg.sensor_width - res.registry.aoi_left + 1).fdiv b) ∧
    (cfg.aoi_height = none →
      res.registry.aoi_height = (reg.sensor_height - res.registry.aoi_top + 1).fdiv b) := by
  obtain ⟨b', hb', hb0, hwx, hhx, hwr, hres⟩ := set_aoi_ok_inv hrun
  rw [hb] at hb'
  injection hb' with hbb
  subst hbb
  subst hres
  refine ⟨?_, ?_, ?_, ?_⟩
  · intro hl
    show aoiLeft cfg = 1
    rw [aoiLeft, hl]
    rfl
  · intro ht
    show aoiTop cfg = 1
    rw [aoiTop, ht]
    rfl
  · intro hw
    show aoiWidthB cfg reg b = (reg.sensor_width - aoiLeft cfg + 1).fdiv b
    rw [aoiWidthB, aoiWidth0, hw]
    rfl
  · intro hh
    show aoiHeightB cfg reg b = (reg.sensor_height - aoiTop cfg + 1).fdiv b
    rw [aoiHeightB, aoiHeight0, hh]
    rfl

/-- C5 witness: the spec's scenario — 2560x2160 sensor, binning 2, all
geometry unspecified — succeeds and yields left 1, top 1, width 1280,
height 1080. -/
theorem set_aoi_default_fill_witness :
    (aoiResult ⟨"2x2", none, none, none, none⟩
      ⟨2560, 2160, "", 0, 0, 0, 0⟩ 2).registry.aoi_left = 1 ∧
    (aoiResult ⟨"2x2", none, none, none, none⟩
      ⟨2560, 2160, "", 0, 0, 0, 0⟩ 2).registry.aoi_top = 1 ∧
    (aoiResult ⟨"2x2", none, none, none, none⟩
      ⟨2560, 2160, "", 0, 0, 0, 0⟩ 2).registry.aoi_width = 1280 ∧
    (aoiResult ⟨"2x2", none, none, none, none⟩
      ⟨2560, 2160, "", 0, 0, 0, 0⟩ 2).registry.aoi_height = 1080 :=
  have h := set_aoi_default_fill ⟨"2x2", none, none, none, none⟩
    ⟨2560, 2160, "", 0, 0, 0, 0⟩
    (aoiWrites ⟨"2x2", none, none, none, none⟩ ⟨2560, 2160, "", 0, 0, 0, 0⟩ 2)
    (aoiResult ⟨"2x2", none, none, none, none⟩ ⟨2560, 2160, "", 0, 0, 0, 0⟩ 2)
    2 (by rfl) (by rfl)
  ⟨h.1 rfl, h.2.1 rfl, h.2.2.1 rfl, h.2.2.2 rfl⟩

/-- C6: after a successful configuration with nonnegative binned dimensions,
`x_index` has exactly `width` entries with `x_index[i] = left + i*binning`,
`y_index` has exactly `height` entries with `y_index[i] = top + i*binning`,
and the image channel shape is `(height, width)` (all values as re-read from
the registry). -/
theorem set_aoi_mappings (cfg : AoiConfig) (reg : Registry)
    (writes : List (String × FeatValue)) (res : AoiResult) (b : Int)
    (hrun : set_aoi cfg reg = (writes, .ok res))
    (hb : parseBinning cfg.aoi_binning = .ok b)
    (hw : 0 ≤ res.registry.aoi_width) (hh : 0 ≤ res.registry.aoi_height) :
    res.x_index.length = res.registry.aoi_width.toNat ∧
    (∀ i : Nat, i < res.x_index.length →
      res.x_index[i]? = some (res.registry.aoi_left + (i : Int) * b)) ∧
    res.y_index.length = res.registry.aoi_height.toNat ∧
    (∀ i : Nat, i < res.y_index.length →
      res.y_index[i]? = some (res.registry.aoi_top + (i : Int) * b)) ∧
    res.shape = (res.registry.aoi_height, res.registry.aoi_width) := by
  obtain ⟨b', hb', hb0, hwx, hhx, hwr, hres⟩ := set_aoi_ok_inv hrun
  rw [hb] at hb'
  injection hb' with hbb
  subst hbb
  have hb1 : 1 ≤ b := by
    have := parseBinning_ok_bounds hb
    omega
  subst hres
  refine ⟨?_, ?_, ?_, ?_, rfl⟩
  · exact arange_block_length _ _ _ hb1
  · intro i hi
    exact arange_getElem _ _ _ i hi
  · exact arange_block_length _ _ _ hb1
  · intro i hi
    exact arange_getElem _ _ _ i hi

/-- C6 witness: a concrete successful run (binning 2, width 10, left 5,
height 6, top 3) has 5 x entries, shape (3, 5), and first x coordinate 5. -/
theorem set_aoi_mappings_witness :
    (aoiResult ⟨"2x2", some 10, some 5, some 6, some 3⟩
        ⟨2560, 2160, "", 0, 0, 0, 0⟩ 2).x_index.length = 5 ∧
    (aoiResult ⟨"2x2", some 10, some 5, some 6, some 3⟩
        ⟨2560, 2160, "", 0, 0, 0, 0⟩ 2).shape = (3, 5) ∧
    (aoiResult ⟨"2x2", some 10, some 5, some 6, some 3⟩
        ⟨2560, 2160, "", 0, 0, 0, 0⟩ 2).x_index[0]? = some 5 :=
  have hm := set_aoi_mappings ⟨"2x2", some 10, some 5, some 6, some 3⟩
    ⟨2560, 2160, "", 0, 0, 0, 0⟩
    (aoiWrites ⟨"2x2", some 10, some 5, some 6, some 3⟩ ⟨2560, 2160, "", 0, 0, 0, 0⟩ 2)
    (aoiResult ⟨"2x2", some 10, some 5, some 6, some 3⟩ ⟨2560, 2160, "", 0, 0, 0, 0⟩ 2)
    2 (by rfl) (by rfl) (by decide) (by decide)
  ⟨hm.1, hm.2.2.2.2, hm.2.1 0 (by decide)⟩

/-- Configurations agreeing on the geometry fields and on the parsed binning
produce identical `set_aoi` runs. -/
lemma set_aoi_binning_congr (cfg cfg' : AoiConfig) (reg : Registry)
    (hpb : parseBinning cfg'.aoi_binning = parseBinning cfg.aoi_binning)
    (hw : cfg'.aoi_width = cfg.aoi_width) (hl : cfg'.aoi_left = cfg.aoi_left)
    (hh : cfg'.aoi_height = cfg.aoi_height) (ht : cfg'.aoi_top = cfg.aoi_top) :
    set_aoi cfg' reg = set_aoi cfg reg := by
  have hL : aoiLeft cfg' = aoiLeft cfg := by rw [aoiLeft, aoiLeft, hl]
  have hT : aoiTop cfg' = aoiTop cfg := by rw [aoiTop, aoiTop, ht]
  have hWB : ∀ b, aoiWidthB cfg' reg b = aoiWidthB cfg reg b := by
    intro b
    rw [aoiWidthB, aoiWidthB, aoiWidth0, aoiWidth0, hw, hL]
  have hHB : ∀ b, aoiHeightB cfg' reg b = aoiHeightB cfg reg b := by
    intro b
    rw [aoiHeightB, aoiHeightB, aoiHeight0, aoiHeight0, hh, hT]
  have hWE : ∀ b, wExtent cfg' reg b = wExtent cfg reg b := by
    intro b
    rw [wExtent, wExtent, hWB, hL]
  have hHE : ∀ b, hExtent cfg' reg b = hExtent cfg reg b := by
    intro b
    rw [hExtent, hExtent, hHB, hT]
  have hWM : ∀ b, wErrMsg cfg' reg b = wErrMsg cfg reg b := by
    intro b
    rw [wErrMsg, wErrMsg, hWE]
  have hHM : ∀ b, hErrMsg cfg' reg b = hErrMsg cfg reg b := by
    intro b
    rw [hErrMsg, hErrMsg, hHE]
  have hWr : ∀ b, aoiWrites cfg' reg b = aoiWrites cfg reg b := by
    intro b
    rw [aoiWrites, aoiWrites, hWB, hHB, hL, hT]
  have hRes : ∀ b, aoiResult cfg' reg b = aoiResult cfg reg b := by
    intro b
    rw [aoiResult, aoiResult, aoiRegistry, aoiRegistry, hWB, hHB, hL, hT]
  unfold set_aoi
  rw [hpb]
  cases parseBinning cfg.aoi_binning with
  | error e => rfl
  | ok b => simp only [hWE, hHE, hWM, hHM, hWr, hRes]

/-- C10: the binning value used by `_set_aoi` is the integer value of the
first character of the configured specifier only — "16x16" parses as 1, the
whole run depends on the specifier only through its first character, and a
non-digit first character fails the run with a parse ValueError before any
Feature Registry write. -/
theorem set_aoi_binning_first_char :
    parseBinning "16x16" = .ok 1 ∧
    (∀ (cfg : AoiConfig) (reg : Registry), set_aoi cfg reg =
      set_aoi { cfg with aoi_binning := String.mk (cfg.aoi_binning.data.take 1) } reg) ∧
    (∀ (cfg : AoiConfig) (reg : Registry) (c : Char) (rest : List Char),
      cfg.aoi_binning.data = c :: rest → intOfChar c = none →
      set_aoi cfg reg = ([], .error (.valueError
        ("invalid literal for int() with base 10: " ++ String.singleton c)))) := by
  refine ⟨by rfl, ?_, ?_⟩
  · intro cfg reg
    have hp : parseBinning (String.mk (cfg.aoi_binning.data.take 1)) =
        parseBinning cfg.aoi_binning := by
      unfold parseBinning
      rcases hd : cfg.aoi_binning.data with _ | ⟨c, rest⟩ <;> rfl
    exact (set_aoi_binning_congr cfg
      { cfg with aoi_binning := String.mk (cfg.aoi_binning.data.take 1) } reg
      hp rfl rfl rfl rfl).symm
  · intro cfg reg c rest hd hc
    have h2 : parseBinning cfg.aoi_binning = (match intOfChar c with
        | some n => Except.ok n
        | none => Except.error (AoiError.valueError
            ("invalid literal for int() with base 10: " ++ String.singleton c))) := by
      unfold parseBinning
      rw [hd]
    rw [hc] at h2
    exact set_aoi_parse_error h2

/-- C10 witness: a specifier with non-digit first character fails before any
write with the parse error. -/
theorem set_aoi_binning_first_char_witness :
    set_aoi ⟨"yx2", none, none, none, none⟩ ⟨2560, 2160, "", 0, 0, 0, 0⟩ =
      ([], .error (.valueError ("invalid literal for int() with base 10: " ++
        String.singleton 'y'))) :=
  set_aoi_binning_first_char.2.2 ⟨"yx2", none, none, none, none⟩
    ⟨2560, 2160, "", 0, 0, 0, 0⟩ 'y' ['x', '2'] (by rfl) (by decide)

/-- C3 counterexample: on target 20.0 and readings [15.0, 17.5, 19.2, 19.5]
the loop does not stop at the fourth reading — it consumes exactly three. -/
theorem check_temp_scenario_not_fourth_reading :
    (check_temp_stabilized 20 [15, 17.5, 19.2, 19.5]).map Prod.fst ≠ some 4 := by
  norm_num [check_temp_stabilized, tempLoop, pyAbs]

/-- C3 (amended): on target 20.0 and readings [15.0, 17.5, 19.2, 19.5] the
loop performs exactly three polls, observing diffs 5.0, 2.5, 0.8, and stops
at the third reading; the fourth reading is never consumed. -/
theorem check_temp_scenario_three_polls :
    check_temp_stabilized 20 [15, 17.5, 19.2, 19.5] = some (3, [5, 2.5, 0.8]) := by
  norm_num [check_temp_stabilized, tempLoop, pyAbs]

/-- C4: `get_feature_options` fails with the unknown-feature error when the
name is not registered, fails with the unsupported-operation error when the
named feature is not of enumerated kind, and returns the ordered option list
exactly for registered enumerated features. -/
theorem get_feature_options_spec (features : List (String × Feature)) (k : String) :
    (features.lookup k = none →
      get_feature_options features k = .error .unknownFeature) ∧
    (∀ f, features.lookup k = some f → f.isEnum = false →
      get_feature_options features k = .error .unsupportedOperation) ∧
    (∀ opts v, features.lookup k = some (.enum opts v) →
      get_feature_options features k = .ok opts) := by
  refine ⟨?_, ?_, ?_⟩
  · intro hnone
    unfold get_feature_options
    rw [hnone]
  · intro f hf hne
    unfold get_feature_options
    rw [hf]
    cases f with
    | enum opts v => simp [Feature.isEnum] at hne
    | intF v => rfl
    | floatF v => rfl
    | boolF v => rfl
  · intro opts v hf
    unfold get_feature_options
    rw [hf]
    rfl

/-- C4 witness: on a concrete registry with an enumerated and a float
feature, the three behaviors hold at concrete names. -/
theorem get_feature_options_spec_witness :
    get_feature_options [("gain", Feature.enum ["low", "high"] "low"),
      ("exposure", Feature.floatF 1)] "missing" = .error .unknownFeature ∧
    get_feature_options [("gain", Feature.enum ["low", "high"] "low"),
      ("exposure", Feature.floatF 1)] "exposure" = .error .unsupportedOperation ∧
    get_feature_options [("gain", Feature.enum ["low", "high"] "low"),
      ("exposure", Feature.floatF 1)] "gain" = .ok ["low", "high"] :=
  ⟨(get_feature_options_spec _ "missing").1 (by rfl),
   (get_feature_options_spec _ "exposure").2.1 (Feature.floatF 1) (by rfl) (by rfl),
   (get_feature_options_spec _ "gain").2.2 ["low", "high"] "low" (by rfl)⟩

/-- C7: the convergence loop reads a (target, sensor) pair each iteration
and computes diff = target - current; when it stops at read pair k then
`|diff k| ≤ 1`, every earlier pair had `|diff| > 1`, and exactly 5 time
units were slept per earlier pair; it stops at the first in-tolerance pair;
and it never terminates (for any amount of fuel) while every pair stays out
of tolerance — the iteration count is unbounded. -/
theorem check_temp_loop_characterization (reads : Nat → ℚ × ℚ) (fuel : Nat) :
    (∀ k e, tempPoll reads fuel 0 0 = some (k, e) →
      pyAbs (tempDiff reads k) ≤ 1 ∧ (∀ j, j < k → 1 < pyAbs (tempDiff reads j)) ∧
      e = 5 * k) ∧
    ((∀ j, j < fuel → 1 < pyAbs (tempDiff reads j)) →
      tempPoll reads fuel 0 0 = none) ∧
    (∀ k, k < fuel → pyAbs (tempDiff reads k) ≤ 1 →
      (∀ j, j < k → 1 < pyAbs (tempDiff reads j)) →
      tempPoll reads fuel 0 0 = some (k, 5 * k)) := by
  refine ⟨?_, ?_, ?_⟩
  · intro k e hrun
    obtain ⟨_, _, h3, h4, h5⟩ := tempPoll_some_inv fuel 0 0 k e hrun
    exact ⟨h3, fun j hj => h4 j (Nat.zero_le _) hj, by omega⟩
  · intro hall
    exact tempPoll_none_of_unstable fuel 0 0 (fun j _ hj => hall j (by omega))
  · intro k hk hstable hfirst
    have hrun := tempPoll_some_of_first_stable fuel 0 0 k (Nat.zero_le _) (by omega)
      hstable (fun j _ hj => hfirst j hj)
    rw [hrun]
    have harith : 0 + 5 * (k - 0) = 5 * k := by omega
    rw [harith]

/-- C7 witness: with target 20 and sensor readings 10, 10, 20, ... the loop
stops at the third pair (index 2) having slept 10 units. -/
theorem check_temp_loop_characterization_witness :
    tempPoll (fun k => (20, if k < 2 then 10 else 20)) 5 0 0 = some (2, 5 * 2) :=
  (check_temp_loop_characterization (fun k => (20, if k < 2 then 10 else 20)) 5).2.2 2
    (by omega)
    (by norm_num [tempDiff, pyAbs])
    (fun j hj => by
      have hj2 : j = 0 ∨ j = 1 := by omega
      rcases hj2 with rfl | rfl <;> norm_num [tempDiff, pyAbs])
